import Mathlib

/-
Verification of the pytorch-frame tutorial script
`examples/tutorials/california_house_price.py` and of the re-export module
`torch_frame/nn/encoder/__init__.py`.

External framework calls (torch, transformers, torch_frame internals) are
modelled as abstract parameters; every piece of control flow and data
plumbing that the script itself performs is embedded faithfully below,
with comments pointing at the source lines it comes from.
-/

set_option autoImplicit false

namespace PyTorchFrame

/-! ## Semantic types (torch_frame.stype)

The script mentions the stypes categorical, numerical, embedding,
multicategorical, timestamp and text_embedded.  The remaining members of
the external enum are irrelevant to the claims; we carry one extra
constructor (text_tokenized) so that the stype universe is not artificially
exhausted by the keys the script touches. -/

inductive Stype where
  | categorical
  | numerical
  | embedding
  | multicategorical
  | timestamp
  | text_embedded
  | text_tokenized
  deriving DecidableEq, Repr

/-! ## Encoders named by the script

`NAStrategy.MEDIAN_TIMESTAMP` is the only strategy the script uses
(line 108); the others exist in the external enum. -/

inductive NAStrategy where
  | MEAN
  | ZEROS
  | MOST_FREQUENT
  | MEDIAN_TIMESTAMP
  deriving DecidableEq, Repr

/-- Encoder constructor expressions as they appear in the script; the
encoder objects themselves are external, so each is identified by which
constructor is called and with which arguments. -/
inductive EncoderSpec where
  | EmbeddingEncoder
  | LinearEncoder
  | LinearEmbeddingEncoder
  | MultiCategoricalEmbeddingEncoder
  | TimestampEncoder (na_strategy : NAStrategy)
  deriving DecidableEq, Repr

/-- Lines 103-109 of california_house_price.py: the dict literal passed as
`stype_encoder_dict` to FTTransformer, in source order. -/
def stype_encoder_dict : List (Stype × EncoderSpec) :=
  [ (Stype.categorical, EncoderSpec.EmbeddingEncoder),
    (Stype.numerical, EncoderSpec.LinearEncoder),
    (Stype.embedding, EncoderSpec.LinearEmbeddingEncoder),
    (Stype.multicategorical, EncoderSpec.MultiCategoricalEmbeddingEncoder),
    (Stype.timestamp, EncoderSpec.TimestampEncoder NAStrategy.MEDIAN_TIMESTAMP) ]

/-- Dict lookup (keys of a Python dict literal with distinct keys). -/
def dictLookup {α β : Type} [DecidableEq α] (d : List (α × β)) (k : α) : Option β :=
  match d with
  | [] => none
  | (k2, v) :: rest => if k2 = k then some v else dictLookup rest k

/-! ## torch_frame/nn/encoder/__init__.py -/

/-- The statement forms that occur in (or could occur in) a Python module
body, at the granularity needed to state that the module is pure
re-export: a from-import, a (possibly chained) assignment of a list of
names, a function definition, or a class definition. -/
inductive InitStmt where
  | importFrom (module : String) (names : List String)
  | assignNames (targets : List String) (names : List String)
  | defFunction (name : String)
  | defClass (name : String)
  deriving DecidableEq, Repr

/-- The module body of torch_frame/nn/encoder/__init__.py, statement by
statement (lines 1-8). -/
def encoder_init_module : List InitStmt :=
  [ InitStmt.importFrom ".encoder" ["FeatureEncoder"],
    InitStmt.importFrom ".stypewise_encoder" ["StypeWiseFeatureEncoder"],
    InitStmt.importFrom ".stype_encoder"
      ["StypeEncoder", "EmbeddingEncoder", "LinearEncoder", "PiecewiseLinearEncoder"],
    InitStmt.assignNames ["__all__", "classes"]
      ["FeatureEncoder", "StypeWiseFeatureEncoder", "StypeEncoder",
       "EmbeddingEncoder", "LinearEncoder", "PiecewiseLinearEncoder"] ]

/-- Does a statement define a function or class of its own? -/
def definesOwn : InitStmt → Bool
  | InitStmt.defFunction _ => true
  | InitStmt.defClass _ => true
  | _ => false

/-- All names imported by the from-import statements of a module body,
in order. -/
def importedNames (m : List InitStmt) : List String :=
  m.foldr (fun s acc =>
    match s with
    | InitStmt.importFrom _ names => names ++ acc
    | _ => acc) []

/-- The lists of names assigned to a given target by the module body. -/
def assignedTo (m : List InitStmt) (target : String) : List (List String) :=
  m.foldr (fun s acc =>
    match s with
    | InitStmt.assignNames targets names =>
        if target ∈ targets then names :: acc else acc
    | _ => acc) []

/-- C5: the stype_encoder_dict passed to the model maps exactly the five
stypes categorical, numerical, embedding, multicategorical and timestamp,
each to its corresponding per-semantic-type encoder (EmbeddingEncoder,
LinearEncoder, LinearEmbeddingEncoder, MultiCategoricalEmbeddingEncoder,
TimestampEncoder respectively), and no other stype has an entry. -/
theorem stype_encoder_dict_coverage :
    stype_encoder_dict.map Prod.fst =
      [Stype.categorical, Stype.numerical, Stype.embedding,
       Stype.multicategorical, Stype.timestamp] ∧
    dictLookup stype_encoder_dict Stype.categorical = some EncoderSpec.EmbeddingEncoder ∧
    dictLookup stype_encoder_dict Stype.numerical = some EncoderSpec.LinearEncoder ∧
    dictLookup stype_encoder_dict Stype.embedding = some EncoderSpec.LinearEmbeddingEncoder ∧
    dictLookup stype_encoder_dict Stype.multicategorical =
      some EncoderSpec.MultiCategoricalEmbeddingEncoder ∧
    dictLookup stype_encoder_dict Stype.timestamp =
      some (EncoderSpec.TimestampEncoder NAStrategy.MEDIAN_TIMESTAMP) ∧
    ∀ s : Stype,
      s ∉ [Stype.categorical, Stype.numerical, Stype.embedding,
           Stype.multicategorical, Stype.timestamp] →
      dictLookup stype_encoder_dict s = none := by
  refine ⟨rfl, rfl, rfl, rfl, rfl, rfl, ?_⟩
  intro s hs
  cases s <;> simp_all [dictLookup, stype_encoder_dict]

/-- Witness for stype_encoder_dict_coverage: the final clause applied to
the concrete stype text_embedded. -/
theorem stype_encoder_dict_coverage_witness :
    dictLookup stype_encoder_dict Stype.text_embedded = none :=
  stype_encoder_dict_coverage.2.2.2.2.2.2 Stype.text_embedded (by decide)

/-- C6: the encoder package __init__ is pure re-export with no logic: it
defines no functions or classes of its own, imports exactly the six names
FeatureEncoder, StypeWiseFeatureEncoder, StypeEncoder, EmbeddingEncoder,
LinearEncoder, PiecewiseLinearEncoder from its submodules, and binds both
__all__ and classes (by a single chained assignment) to exactly that list
of six names. -/
theorem encoder_init_pure_reexport :
    (∀ s ∈ encoder_init_module, definesOwn s = false) ∧
    importedNames encoder_init_module =
      ["FeatureEncoder", "StypeWiseFeatureEncoder", "StypeEncoder",
       "EmbeddingEncoder", "LinearEncoder", "PiecewiseLinearEncoder"] ∧
    assignedTo encoder_init_module "__all__" = [importedNames encoder_init_module] ∧
    assignedTo encoder_init_module "classes" = [importedNames encoder_init_module] := by
  refine ⟨?_, rfl, rfl, rfl⟩
  intro s hs
  fin_cases hs <;> rfl

/-- Witness for encoder_init_pure_reexport: its first clause applied to
the first statement of the module body. -/
theorem encoder_init_pure_reexport_witness :
    definesOwn (InitStmt.importFrom ".encoder" ["FeatureEncoder"]) = false :=
  encoder_init_pure_reexport.1 _ (by decide)

/-! ## The tensor-frame stype rename (lines 87-88)

A Python dict is modelled extensionally as a function to Option; pop
removes a key and returns its value, raising KeyError (modelled as none)
when the key is absent; item assignment inserts or overwrites. -/

/-- Python d.pop(k): the value at k and the dict without k, or none
(KeyError) when k is absent. -/
def dictPop {V : Type} (d : Stype → Option V) (k : Stype) :
    Option (V × (Stype → Option V)) :=
  match d k with
  | none => none
  | some v => some (v, fun k2 => if k2 = k then none else d k2)

/-- Python d[k] = v. -/
def dictSet {V : Type} (d : Stype → Option V) (k : Stype) (v : V) :
    Stype → Option V :=
  fun k2 => if k2 = k then some v else d k2

/-- The two dict-valued attributes of dataset.tensor_frame that lines
87-88 mutate; the value types (lists of column names, feature tensors)
are external and stay abstract. -/
structure TensorFrame (C F : Type) where
  col_names_dict : Stype → Option C
  feat_dict : Stype → Option F

/-- Lines 87-88 of california_house_price.py:
tensor_frame.col_names_dict[embedding] = col_names_dict.pop(text_embedded)
and the same for feat_dict; none when a pop raises KeyError. -/
def renameTextEmbedded {C F : Type} (tf : TensorFrame C F) :
    Option (TensorFrame C F) :=
  match dictPop tf.col_names_dict Stype.text_embedded with
  | none => none
  | some (v, cn) =>
    let cn2 := dictSet cn Stype.embedding v
    match dictPop tf.feat_dict Stype.text_embedded with
    | none => none
    | some (w, fd) => some ⟨cn2, dictSet fd Stype.embedding w⟩

/-- C9: when both dicts have a text_embedded entry (as they do after
materialization of a dataset with an embedded text column), the rename on
lines 87-88 leaves a tensor frame with no text_embedded key in either
dict, whose embedding entries are the former text_embedded entries, and
whose entries under every other stype key are unchanged. -/
theorem rename_text_embedded_to_embedding {C F : Type} (tf : TensorFrame C F)
    (v : C) (w : F)
    (hcol : tf.col_names_dict Stype.text_embedded = some v)
    (hfeat : tf.feat_dict Stype.text_embedded = some w) :
    ∃ tf2 : TensorFrame C F, renameTextEmbedded tf = some tf2 ∧
      tf2.col_names_dict Stype.text_embedded = none ∧
      tf2.feat_dict Stype.text_embedded = none ∧
      tf2.col_names_dict Stype.embedding = some v ∧
      tf2.feat_dict Stype.embedding = some w ∧
      ∀ k : Stype, k ≠ Stype.text_embedded → k ≠ Stype.embedding →
        tf2.col_names_dict k = tf.col_names_dict k ∧
        tf2.feat_dict k = tf.feat_dict k := by
  refine ⟨⟨dictSet (fun k2 => if k2 = Stype.text_embedded then none
            else tf.col_names_dict k2) Stype.embedding v,
          dictSet (fun k2 => if k2 = Stype.text_embedded then none
            else tf.feat_dict k2) Stype.embedding w⟩, ?_, ?_, ?_, ?_, ?_, ?_⟩
  · simp [renameTextEmbedded, dictPop, hcol, hfeat]
  · simp [dictSet]
  · simp [dictSet]
  · simp [dictSet]
  · simp [dictSet]
  · intro k hk1 hk2
    constructor <;> simp [dictSet, hk1, hk2]

/-- Witness for rename_text_embedded_to_embedding at a concrete tensor
frame over C = F = Nat with a text_embedded entry in both dicts. -/
theorem rename_text_embedded_to_embedding_witness :
    ∃ tf2 : TensorFrame Nat Nat,
      renameTextEmbedded
        ⟨fun k => if k = Stype.text_embedded then some 1 else none,
         fun k => if k = Stype.text_embedded then some 2 else none⟩ = some tf2 ∧
      tf2.col_names_dict Stype.text_embedded = none ∧
      tf2.feat_dict Stype.text_embedded = none ∧
      tf2.col_names_dict Stype.embedding = some 1 ∧
      tf2.feat_dict Stype.embedding = some 2 ∧
      ∀ k : Stype, k ≠ Stype.text_embedded → k ≠ Stype.embedding →
        (TensorFrame.col_names_dict tf2 k =
          (if k = Stype.text_embedded then some 1 else none)) ∧
        (TensorFrame.feat_dict tf2 k =
          (if k = Stype.text_embedded then some 2 else none)) :=
  rename_text_embedded_to_embedding
    ⟨fun k => if k = Stype.text_embedded then some 1 else none,
     fun k => if k = Stype.text_embedded then some 2 else none⟩ 1 2 (by simp) (by simp)

/-! ## The command-line surface (lines 29-42)

The parser declarations are the script's own content; the parsing
machinery is the external argparse library, modelled here by its
documented behaviour: unknown options are rejected, a store_true flag
takes no value, a non-flag option takes exactly one value, and a value
outside a declared choices list is rejected.  Type conversion of accepted
values (int(...), float(...)) is argparse internals and is abstracted: an
accepted token is recorded as the raw string. -/

/-- A parsed or default Python value of an option. -/
inductive ArgValue where
  | str (s : String)
  | int (n : Int)
  | float (q : ℚ)
  | boolean (b : Bool)
  | pyNone
  deriving DecidableEq, Repr

/-- One add_argument declaration: option name, whether the action is
store_true, the declared default (store_true implies default False), and
the declared choices list when present. -/
structure ArgSpec where
  name : String
  isFlag : Bool
  default : Option ArgValue
  choices : Option (List String)
  deriving DecidableEq, Repr

/-- Lines 30-41 of california_house_price.py: the ten add_argument calls,
in source order. -/
def parserArguments : List ArgSpec :=
  [ ⟨"--dataset", false, some (ArgValue.str "california_house_price"), none⟩,
    ⟨"--channels", false, some (ArgValue.int 256), none⟩,
    ⟨"--num_layers", false, some (ArgValue.int 4), none⟩,
    ⟨"--batch_size", false, some (ArgValue.int 512), none⟩,
    ⟨"--lr", false, some (ArgValue.float (1 / 10000)), none⟩,
    ⟨"--epochs", false, some (ArgValue.int 100), none⟩,
    ⟨"--seed", false, some (ArgValue.int 0), none⟩,
    ⟨"--model", false, some (ArgValue.str "sentence-transformers/all-distilroberta-v1"), none⟩,
    ⟨"--pooling", false, some (ArgValue.str "mean"), some ["mean", "cls"]⟩,
    ⟨"--compile", true, some (ArgValue.boolean false), none⟩ ]

/-- Look up the declaration of an option name. -/
def findSpec (name : String) : Option ArgSpec :=
  parserArguments.find? (fun s => s.name == name)

/-- Replace the value recorded for an option name. -/
def setValue (acc : List (String × ArgValue)) (name : String) (v : ArgValue) :
    List (String × ArgValue) :=
  acc.map (fun p => if p.1 = name then (p.1, v) else p)

/-- Is the value admitted by the declaration's choices list? -/
def checkChoices (spec : ArgSpec) (value : String) : Bool :=
  match spec.choices with
  | none => true
  | some cs => value ∈ cs

/-- Process one command-line token, a name with an optional attached
value; none is a parse error (argparse exits). -/
def parseOne (acc : List (String × ArgValue)) (tok : String × Option String) :
    Option (List (String × ArgValue)) :=
  match findSpec tok.1 with
  | none => none
  | some spec =>
    if spec.isFlag then
      match tok.2 with
      | none => some (setValue acc spec.name (ArgValue.boolean true))
      | some _ => none
    else
      match tok.2 with
      | none => none
      | some v =>
        if checkChoices spec v then some (setValue acc spec.name (ArgValue.str v))
        else none

/-- The namespace argparse starts from: every declared option at its
default (pyNone if a declaration had no default, which none does here). -/
def initialNamespace : List (String × ArgValue) :=
  parserArguments.map (fun s => (s.name, s.default.getD ArgValue.pyNone))

/-- Line 42, args = parser.parse_args(), over an explicit token list. -/
def parseArgs (tokens : List (String × Option String)) :
    Option (List (String × ArgValue)) :=
  tokens.foldl (fun acc tok => acc.bind (fun a => parseOne a tok)) (some initialNamespace)

/-- C4: the parser accepts exactly the ten options --dataset, --channels,
--num_layers, --batch_size, --lr, --epochs, --seed, --model, --pooling and
--compile; every option has a default, so parsing an empty command line
succeeds and yields the default namespace; and --pooling parses
successfully exactly for the values mean and cls. -/
theorem parser_surface :
    parserArguments.map ArgSpec.name =
      ["--dataset", "--channels", "--num_layers", "--batch_size", "--lr",
       "--epochs", "--seed", "--model", "--pooling", "--compile"] ∧
    (∀ s ∈ parserArguments, s.default.isSome = true) ∧
    parseArgs [] = some initialNamespace ∧
    (∀ name : String, findSpec name ≠ none →
      name ∈ ["--dataset", "--channels", "--num_layers", "--batch_size", "--lr",
              "--epochs", "--seed", "--model", "--pooling", "--compile"]) ∧
    (∀ v : String,
      (parseArgs [("--pooling", some v)]).isSome = true ↔ (v = "mean" ∨ v = "cls")) := by
  refine ⟨rfl, ?_, rfl, ?_, ?_⟩
  · intro s hs
    fin_cases hs <;> rfl
  · intro name hname
    by_contra hmem
    simp only [List.mem_cons, List.not_mem_nil, or_false] at hmem
    push_neg at hmem
    obtain ⟨h1, h2, h3, h4, h5, h6, h7, h8, h9, h10⟩ := hmem
    apply hname
    have e1 : ("--dataset" == name) = false := beq_eq_false_iff_ne.mpr (Ne.symm h1)
    have e2 : ("--channels" == name) = false := beq_eq_false_iff_ne.mpr (Ne.symm h2)
    have e3 : ("--num_layers" == name) = false := beq_eq_false_iff_ne.mpr (Ne.symm h3)
    have e4 : ("--batch_size" == name) = false := beq_eq_false_iff_ne.mpr (Ne.symm h4)
    have e5 : ("--lr" == name) = false := beq_eq_false_iff_ne.mpr (Ne.symm h5)
    have e6 : ("--epochs" == name) = false := beq_eq_false_iff_ne.mpr (Ne.symm h6)
    have e7 : ("--seed" == name) = false := beq_eq_false_iff_ne.mpr (Ne.symm h7)
    have e8 : ("--model" == name) = false := beq_eq_false_iff_ne.mpr (Ne.symm h8)
    have e9 : ("--pooling" == name) = false := beq_eq_false_iff_ne.mpr (Ne.symm h9)
    have e10 : ("--compile" == name) = false := beq_eq_false_iff_ne.mpr (Ne.symm h10)
    simp [findSpec, parserArguments, List.find?, e1, e2, e3, e4, e5, e6, e7, e8, e9, e10]
  · intro v
    simp only [parseArgs, List.foldl, Option.bind, parseOne]
    have hspec : findSpec "--pooling" =
        some ⟨"--pooling", false, some (ArgValue.str "mean"), some ["mean", "cls"]⟩ := rfl
    rw [hspec]
    simp only [checkChoices]
    by_cases h1 : v = "mean"
    · subst h1; simp
    · by_cases h2 : v = "cls"
      · subst h2; simp
      · simp [h1, h2]

/-- Witness for parser_surface: the default clause at the --dataset
declaration, the closed-surface clause at --pooling, and the choices
clause at the concrete value cls. -/
theorem parser_surface_witness :
    (ArgSpec.default ⟨"--dataset", false,
      some (ArgValue.str "california_house_price"), none⟩).isSome = true ∧
    "--pooling" ∈ ["--dataset", "--channels", "--num_layers", "--batch_size", "--lr",
                   "--epochs", "--seed", "--model", "--pooling", "--compile"] ∧
    (parseArgs [("--pooling", some "cls")]).isSome = true :=
  ⟨parser_surface.2.1 _ (by decide),
   parser_surface.2.2.2.1 "--pooling" (by decide),
   (parser_surface.2.2.2.2 "cls").mpr (Or.inr rfl)⟩

/-! ## The epoch loop's best-metric selection (lines 171-191)

The four numbers an epoch produces (train(epoch) and the three test(...)
calls on lines 181-184) are abstract inputs here; accuracies are exact
rationals and RMSE values are represented by rationals as well, since the
loop reads the metrics only through order comparisons.  The initial
best values are 0 for classification and +infinity for regression
(lines 171-178), so the running pair lives in WithTop ℚ. -/

/-- The results of the four framework calls made in one iteration of the
epoch loop (lines 181-184). -/
structure EpochRecord where
  train_loss : ℚ
  train_metric : ℚ
  val_metric : ℚ
  test_metric : ℚ
  deriving DecidableEq, Repr

/-- Lines 171-178: best_val_metric and best_test_metric start at 0 for
classification and at float("inf") for regression. -/
def initBest (is_classification : Bool) : WithTop ℚ × WithTop ℚ :=
  if is_classification then (((0 : ℚ) : WithTop ℚ), ((0 : ℚ) : WithTop ℚ))
  else (⊤, ⊤)

/-- Lines 186-191: the if/elif updating the running best pair from one
epoch's validation and test metrics. -/
def loopStep (is_classification : Bool) (s : WithTop ℚ × WithTop ℚ)
    (r : EpochRecord) : WithTop ℚ × WithTop ℚ :=
  if is_classification = true ∧ (r.val_metric : WithTop ℚ) > s.1 then
    ((r.val_metric : WithTop ℚ), (r.test_metric : WithTop ℚ))
  else if is_classification = false ∧ (r.val_metric : WithTop ℚ) < s.1 then
    ((r.val_metric : WithTop ℚ), (r.test_metric : WithTop ℚ))
  else s

/-- Lines 180-191: the epoch loop, as a fold of loopStep over the list of
per-epoch records starting from the initial best pair. -/
def epochLoop (is_classification : Bool) (records : List EpochRecord) :
    WithTop ℚ × WithTop ℚ :=
  records.foldl (loopStep is_classification) (initBest is_classification)

theorem loopStep_true (s : WithTop ℚ × WithTop ℚ) (r : EpochRecord) :
    loopStep true s r =
      if s.1 < (r.val_metric : WithTop ℚ) then
        ((r.val_metric : WithTop ℚ), (r.test_metric : WithTop ℚ))
      else s := by
  simp [loopStep, GT.gt]

theorem loopStep_false (s : WithTop ℚ × WithTop ℚ) (r : EpochRecord) :
    loopStep false s r =
      if (r.val_metric : WithTop ℚ) < s.1 then
        ((r.val_metric : WithTop ℚ), (r.test_metric : WithTop ℚ))
      else s := by
  simp [loopStep]

theorem foldl_true_no_improve (rs : List EpochRecord) (b t : WithTop ℚ)
    (h : ∀ r ∈ rs, (r.val_metric : WithTop ℚ) ≤ b) :
    rs.foldl (loopStep true) (b, t) = (b, t) := by
  induction rs generalizing b t with
  | nil => rfl
  | cons r rs ih =>
    have hr := h r (List.mem_cons_self r rs)
    simp only [List.foldl_cons, loopStep_true]
    rw [if_neg (not_lt.mpr hr)]
    exact ih b t (fun r2 hr2 => h r2 (List.mem_cons_of_mem _ hr2))

theorem foldl_false_no_improve (rs : List EpochRecord) (b t : WithTop ℚ)
    (h : ∀ r ∈ rs, b ≤ (r.val_metric : WithTop ℚ)) :
    rs.foldl (loopStep false) (b, t) = (b, t) := by
  induction rs generalizing b t with
  | nil => rfl
  | cons r rs ih =>
    have hr := h r (List.mem_cons_self r rs)
    simp only [List.foldl_cons, loopStep_false]
    rw [if_neg (not_lt.mpr hr)]
    exact ih b t (fun r2 hr2 => h r2 (List.mem_cons_of_mem _ hr2))

theorem foldl_true_select (rs : List EpochRecord) (b t : WithTop ℚ)
    (h : ∃ r ∈ rs, b < (r.val_metric : WithTop ℚ)) :
    ∃ r0 ∈ rs,
      rs.foldl (loopStep true) (b, t) =
        ((r0.val_metric : WithTop ℚ), (r0.test_metric : WithTop ℚ)) ∧
      rs.find? (fun r => r.val_metric == r0.val_metric) = some r0 ∧
      (∀ r ∈ rs, r.val_metric ≤ r0.val_metric) ∧
      b < (r0.val_metric : WithTop ℚ) := by
  induction rs generalizing b t with
  | nil => simp at h
  | cons r rs ih =>
    simp only [List.foldl_cons, loopStep_true]
    by_cases hb : b < (r.val_metric : WithTop ℚ)
    · rw [if_pos hb]
      by_cases h2 : ∃ r2 ∈ rs, (r.val_metric : WithTop ℚ) < (r2.val_metric : WithTop ℚ)
      · obtain ⟨r0, hr0mem, hfold, hfind, hle, hlt⟩ := ih _ _ h2
        have hltq : r.val_metric < r0.val_metric := by exact_mod_cast hlt
        refine ⟨r0, List.mem_cons_of_mem _ hr0mem, hfold, ?_, ?_, lt_trans hb hlt⟩
        · rw [List.find?_cons_of_neg, hfind]
          simp [ne_of_lt hltq]
        · intro r2 hr2
          rcases List.mem_cons.mp hr2 with rfl | hr2b
          · exact le_of_lt hltq
          · exact hle r2 hr2b
      · push_neg at h2
        have h2b : ∀ r2 ∈ rs, (r2.val_metric : WithTop ℚ) ≤ (r.val_metric : WithTop ℚ) :=
          fun r2 hr2 => h2 r2 hr2
        refine ⟨r, List.mem_cons_self _ _,
          foldl_true_no_improve rs _ _ h2b, ?_, ?_, hb⟩
        · rw [List.find?_cons_of_pos]
          simp
        · intro r2 hr2
          rcases List.mem_cons.mp hr2 with rfl | hr2b
          · exact le_refl _
          · exact_mod_cast h2b r2 hr2b
    · rw [if_neg hb]
      have h3 : ∃ r2 ∈ rs, b < (r2.val_metric : WithTop ℚ) := by
        obtain ⟨r2, hmem, hlt⟩ := h
        rcases List.mem_cons.mp hmem with rfl | hmem2
        · exact absurd hlt hb
        · exact ⟨r2, hmem2, hlt⟩
      obtain ⟨r0, hr0mem, hfold, hfind, hle, hlt⟩ := ih _ _ h3
      have hrq : r.val_metric < r0.val_metric := by
        have hrb : (r.val_metric : WithTop ℚ) ≤ b := not_lt.mp hb
        exact_mod_cast lt_of_le_of_lt hrb hlt
      refine ⟨r0, List.mem_cons_of_mem _ hr0mem, hfold, ?_, ?_, hlt⟩
      · rw [List.find?_cons_of_neg, hfind]
        simp [ne_of_lt hrq]
      · intro r2 hr2
        rcases List.mem_cons.mp hr2 with rfl | hr2b
        · exact le_of_lt hrq
        · exact hle r2 hr2b

theorem foldl_false_select (rs : List EpochRecord) (b t : WithTop ℚ)
    (h : ∃ r ∈ rs, (r.val_metric : WithTop ℚ) < b) :
    ∃ r0 ∈ rs,
      rs.foldl (loopStep false) (b, t) =
        ((r0.val_metric : WithTop ℚ), (r0.test_metric : WithTop ℚ)) ∧
      rs.find? (fun r => r.val_metric == r0.val_metric) = some r0 ∧
      (∀ r ∈ rs, r0.val_metric ≤ r.val_metric) ∧
      (r0.val_metric : WithTop ℚ) < b := by
  induction rs generalizing b t with
  | nil => simp at h
  | cons r rs ih =>
    simp only [List.foldl_cons, loopStep_false]
    by_cases hb : (r.val_metric : WithTop ℚ) < b
    · rw [if_pos hb]
      by_cases h2 : ∃ r2 ∈ rs, (r2.val_metric : WithTop ℚ) < (r.val_metric : WithTop ℚ)
      · obtain ⟨r0, hr0mem, hfold, hfind, hle, hlt⟩ := ih _ _ h2
        have hltq : r0.val_metric < r.val_metric := by exact_mod_cast hlt
        refine ⟨r0, List.mem_cons_of_mem _ hr0mem, hfold, ?_, ?_, lt_trans hlt hb⟩
        · rw [List.find?_cons_of_neg, hfind]
          simp [Ne.symm (ne_of_lt hltq)]
        · intro r2 hr2
          rcases List.mem_cons.mp hr2 with rfl | hr2b
          · exact le_of_lt hltq
          · exact hle r2 hr2b
      · push_neg at h2
        refine ⟨r, List.mem_cons_self _ _,
          foldl_false_no_improve rs _ _ (fun r2 hr2 => h2 r2 hr2), ?_, ?_, hb⟩
        · rw [List.find?_cons_of_pos]
          simp
        · intro r2 hr2
          rcases List.mem_cons.mp hr2 with rfl | hr2b
          · exact le_refl _
          · exact_mod_cast h2 r2 hr2b
    · rw [if_neg hb]
      have h3 : ∃ r2 ∈ rs, (r2.val_metric : WithTop ℚ) < b := by
        obtain ⟨r2, hmem, hlt⟩ := h
        rcases List.mem_cons.mp hmem with rfl | hmem2
        · exact absurd hlt hb
        · exact ⟨r2, hmem2, hlt⟩
      obtain ⟨r0, hr0mem, hfold, hfind, hle, hlt⟩ := ih _ _ h3
      have hrq : r0.val_metric < r.val_metric := by
        have hrb : b ≤ (r.val_metric : WithTop ℚ) := not_lt.mp hb
        exact_mod_cast lt_of_lt_of_le hlt hrb
      refine ⟨r0, List.mem_cons_of_mem _ hr0mem, hfold, ?_, ?_, hlt⟩
      · rw [List.find?_cons_of_neg, hfind]
        simp [Ne.symm (ne_of_lt hrq)]
      · intro r2 hr2
        rcases List.mem_cons.mp hr2 with rfl | hr2b
        · exact le_of_lt hrq
        · exact hle r2 hr2b

/-- C1: after the epoch loop, when the task is classification and some
epoch's validation accuracy strictly exceeds the initial 0, the best pair
is the (validation, test) pair of the earliest epoch attaining the maximal
validation accuracy; when no epoch exceeds 0, the pair keeps its initial
value (0, 0) regardless of the test metrics observed.  When the task is
regression and some epoch's validation RMSE is strictly below the initial
+infinity, the best pair is the (validation, test) pair of the earliest
epoch attaining the minimal validation RMSE; when no epoch improves on
+infinity, the pair stays (+infinity, +infinity). -/
theorem best_metric_selection (records : List EpochRecord) :
    ((∃ r ∈ records, 0 < r.val_metric) →
      ∃ r0 ∈ records,
        epochLoop true records =
          ((r0.val_metric : WithTop ℚ), (r0.test_metric : WithTop ℚ)) ∧
        records.find? (fun r => r.val_metric == r0.val_metric) = some r0 ∧
        (∀ r ∈ records, r.val_metric ≤ r0.val_metric) ∧ 0 < r0.val_metric) ∧
    ((∀ r ∈ records, r.val_metric ≤ 0) →
      epochLoop true records = (((0 : ℚ) : WithTop ℚ), ((0 : ℚ) : WithTop ℚ))) ∧
    ((∃ r ∈ records, (r.val_metric : WithTop ℚ) < ⊤) →
      ∃ r0 ∈ records,
        epochLoop false records =
          ((r0.val_metric : WithTop ℚ), (r0.test_metric : WithTop ℚ)) ∧
        records.find? (fun r => r.val_metric == r0.val_metric) = some r0 ∧
        (∀ r ∈ records, r0.val_metric ≤ r.val_metric)) ∧
    ((∀ r ∈ records, ¬((r.val_metric : WithTop ℚ) < ⊤)) →
      epochLoop false records = (⊤, ⊤)) := by
  refine ⟨?_, ?_, ?_, ?_⟩
  · intro h
    have h2 : ∃ r ∈ records, ((0 : ℚ) : WithTop ℚ) < (r.val_metric : WithTop ℚ) := by
      obtain ⟨r, hmem, hlt⟩ := h
      exact ⟨r, hmem, by exact_mod_cast hlt⟩
    obtain ⟨r0, hr0mem, hfold, hfind, hle, hlt⟩ :=
      foldl_true_select records ((0 : ℚ) : WithTop ℚ) ((0 : ℚ) : WithTop ℚ) h2
    exact ⟨r0, hr0mem, hfold, hfind, hle, by exact_mod_cast hlt⟩
  · intro h
    exact foldl_true_no_improve records _ _
      (fun r hr => by exact_mod_cast h r hr)
  · intro h
    obtain ⟨r0, hr0mem, hfold, hfind, hle, _⟩ :=
      foldl_false_select records ⊤ ⊤ h
    exact ⟨r0, hr0mem, hfold, hfind, hle⟩
  · intro h
    cases records with
    | nil => rfl
    | cons r rs =>
      exact absurd (WithTop.coe_lt_top r.val_metric)
        (h r (List.mem_cons_self r rs))

/-- Witness for best_metric_selection: a two-epoch classification run
where the second epoch has the strictly larger validation accuracy, and a
two-epoch regression run where the first epoch already attains the
minimal RMSE; hypotheses discharged by decide. -/
theorem best_metric_selection_witness :
    (∃ r0 ∈ [EpochRecord.mk 1 1 (1/2) (3/4), EpochRecord.mk 1 1 (2/3) (1/4)],
      epochLoop true [EpochRecord.mk 1 1 (1/2) (3/4), EpochRecord.mk 1 1 (2/3) (1/4)] =
        ((r0.val_metric : WithTop ℚ), (r0.test_metric : WithTop ℚ)) ∧
      [EpochRecord.mk 1 1 (1/2) (3/4), EpochRecord.mk 1 1 (2/3) (1/4)].find?
        (fun r => r.val_metric == r0.val_metric) = some r0 ∧
      (∀ r ∈ [EpochRecord.mk 1 1 (1/2) (3/4), EpochRecord.mk 1 1 (2/3) (1/4)],
        r.val_metric ≤ r0.val_metric) ∧ 0 < r0.val_metric) ∧
    (∃ r0 ∈ [EpochRecord.mk 1 1 (5/2) (3/4), EpochRecord.mk 1 1 3 (1/4)],
      epochLoop false [EpochRecord.mk 1 1 (5/2) (3/4), EpochRecord.mk 1 1 3 (1/4)] =
        ((r0.val_metric : WithTop ℚ), (r0.test_metric : WithTop ℚ)) ∧
      [EpochRecord.mk 1 1 (5/2) (3/4), EpochRecord.mk 1 1 3 (1/4)].find?
        (fun r => r.val_metric == r0.val_metric) = some r0 ∧
      (∀ r ∈ [EpochRecord.mk 1 1 (5/2) (3/4), EpochRecord.mk 1 1 3 (1/4)],
        r0.val_metric ≤ r.val_metric)) :=
  ⟨(best_metric_selection _).1
      ⟨EpochRecord.mk 1 1 (1/2) (3/4), List.mem_cons_self _ _, by norm_num⟩,
   (best_metric_selection _).2.2.1
      ⟨EpochRecord.mk 1 1 (5/2) (3/4), List.mem_cons_self _ _,
        WithTop.coe_lt_top _⟩⟩

/-! ## The training function (lines 128-144)

The model, the two loss functions and the batches are external and stay
abstract; what the script itself does — branch on the task type, the
zero_grad/backward/step cycle, the loss accumulation weighted by
len(tf.y), and the final average — is embedded as a fold recording the
optimizer calls it makes. -/

/-- One optimizer interaction of the training loop body. -/
inductive OptEvent where
  | zero_grad
  | backward
  | step
  deriving DecidableEq, Repr

/-- The mutable state of train: the optimizer-call trace plus loss_accum
and total_count (line 130). -/
structure TrainState where
  events : List OptEvent
  loss_accum : ℚ
  total_count : ℕ

/-- Lines 134-138: pred = model(tf), then cross_entropy(pred, tf.y) for
classification and mse_loss(pred.view(-1), tf.y.view(-1)) otherwise.  The
loss functions receive the prediction and the batch (the batch holds
tf.y). -/
def batchLoss {β γ : Type} (is_classification : Bool) (model : β → γ)
    (cross_entropy mse_loss : γ → β → ℚ) (tf : β) : ℚ :=
  let pred := model tf
  if is_classification then cross_entropy pred tf else mse_loss pred tf

/-- Lines 132-143: one iteration of the loop body of train.  The calls
optimizer.zero_grad(), loss.backward() and optimizer.step() happen in
this order, with the loss_accum and total_count updates between backward
and step. -/
def trainStep {β γ : Type} (is_classification : Bool) (model : β → γ)
    (cross_entropy mse_loss : γ → β → ℚ) (y_len : β → ℕ)
    (s : TrainState) (tf : β) : TrainState :=
  let loss := batchLoss is_classification model cross_entropy mse_loss tf
  { events := s.events ++ [OptEvent.zero_grad, OptEvent.backward, OptEvent.step],
    loss_accum := s.loss_accum + loss * (y_len tf : ℚ),
    total_count := s.total_count + y_len tf }

/-- Lines 128-144: train(epoch), returning loss_accum / total_count
together with the final state. -/
def train {β γ : Type} (is_classification : Bool) (model : β → γ)
    (cross_entropy mse_loss : γ → β → ℚ) (y_len : β → ℕ)
    (train_loader : List β) : ℚ × TrainState :=
  let s := train_loader.foldl
    (trainStep is_classification model cross_entropy mse_loss y_len) ⟨[], 0, 0⟩
  (s.loss_accum / (s.total_count : ℚ), s)

theorem trainFold_spec {β γ : Type} (is_classification : Bool) (model : β → γ)
    (cross_entropy mse_loss : γ → β → ℚ) (y_len : β → ℕ)
    (loader : List β) (s : TrainState) :
    loader.foldl (trainStep is_classification model cross_entropy mse_loss y_len) s =
      { events := s.events ++
          (loader.map fun _ => [OptEvent.zero_grad, OptEvent.backward, OptEvent.step]).flatten,
        loss_accum := s.loss_accum + (loader.map fun tf =>
          batchLoss is_classification model cross_entropy mse_loss tf * (y_len tf : ℚ)).sum,
        total_count := s.total_count + (loader.map y_len).sum } := by
  induction loader generalizing s with
  | nil => simp
  | cons tf rest ih =>
    simp only [List.foldl_cons, ih, trainStep, List.map_cons, List.flatten,
      List.sum_cons, List.append_assoc, add_assoc]

/-- C2: train iterates once over every batch of the loader; per batch the
loss is the cross-entropy of the prediction against tf.y for
classification and the mean-squared error otherwise; the optimizer trace
is exactly one zero_grad/backward/step cycle per batch, in order; and the
returned value is the sum over batches of loss times len(tf.y) divided by
the total sample count. -/
theorem train_gradient_descent_pattern {β γ : Type} (is_classification : Bool)
    (model : β → γ) (cross_entropy mse_loss : γ → β → ℚ) (y_len : β → ℕ)
    (loader : List β) :
    (train is_classification model cross_entropy mse_loss y_len loader).2.events =
      (loader.map fun _ => [OptEvent.zero_grad, OptEvent.backward, OptEvent.step]).flatten ∧
    (train is_classification model cross_entropy mse_loss y_len loader).2.loss_accum =
      (loader.map fun tf =>
        (if is_classification then cross_entropy (model tf) tf
         else mse_loss (model tf) tf) * (y_len tf : ℚ)).sum ∧
    (train is_classification model cross_entropy mse_loss y_len loader).2.total_count =
      (loader.map y_len).sum ∧
    (0 < (loader.map y_len).sum →
      (train is_classification model cross_entropy mse_loss y_len loader).1 =
        (loader.map fun tf =>
          (if is_classification then cross_entropy (model tf) tf
           else mse_loss (model tf) tf) * (y_len tf : ℚ)).sum /
          (((loader.map y_len).sum : ℕ) : ℚ)) := by
  have hfold := trainFold_spec is_classification model cross_entropy mse_loss y_len
    loader ⟨[], 0, 0⟩
  refine ⟨?_, ?_, ?_, ?_⟩
  · simp [train, hfold]
  · simp [train, hfold, batchLoss]
  · simp [train, hfold]
  · intro _
    simp [train, hfold, batchLoss]

/-- Witness for train_gradient_descent_pattern: a concrete two-batch
classification loader over natural-number batches whose prediction is the
batch itself, cross-entropy reads the prediction, and len(tf.y) is the
batch value; total count 5 is positive and the weighted average is 13/5. -/
theorem train_gradient_descent_pattern_witness :
    (train true (fun n : ℕ => n) (fun p _ => (p : ℚ)) (fun _ _ => (0 : ℚ))
      (fun n => n) [2, 3]).1 = 13 / 5 := by
  have h := (train_gradient_descent_pattern true (fun n : ℕ => n)
    (fun p _ => (p : ℚ)) (fun _ _ => (0 : ℚ)) (fun n => n) [2, 3]).2.2.2 (by decide)
  rw [h]
  norm_num

/-! ## The evaluation function (lines 147-168)

A batch is its model output (per-sample prediction rows) together with
its label tensor tf.y, both as exact rationals.  torch.argmax along the
last dimension returns the index of the first maximal entry; the label of
a correctly classified sample equals that index. -/

/-- One batch seen by test(loader): the model's prediction rows and the
labels tf.y.  For classification a row holds the per-class scores and a
label is a class index; for regression a row holds the single output
channel and pred.view(-1) flattens the rows. -/
structure TestBatch where
  pred : List (List ℚ)
  y : List ℚ
  deriving DecidableEq, Repr

/-- Helper of argmaxIdx carrying the best index and value so far. -/
def argmaxFrom (bi : ℕ) (bv : ℚ) (i : ℕ) : List ℚ → ℕ
  | [] => bi
  | x :: xs => if bv < x then argmaxFrom i x (i + 1) xs else argmaxFrom bi bv (i + 1) xs

/-- torch argmax over one prediction row: index of the first maximal
entry (0 on an empty row, which torch rejects). -/
def argmaxIdx : List ℚ → ℕ
  | [] => 0
  | x :: xs => argmaxFrom 0 x 1 xs

/-- Line 156-157: pred_class = pred.argmax(dim=-1) and
float((tf.y == pred_class).sum()) — the number of samples whose label
equals the argmax of their prediction row. -/
def correctCount (b : TestBatch) : ℕ :=
  (b.y.zip (b.pred.map fun p => ((argmaxIdx p : ℕ) : ℚ))).countP
    (fun q => decide (q.1 = q.2))

/-- Lines 159-160: F.mse_loss(pred.view(-1), tf.y.view(-1),
reduction="sum") — the sum of squared errors of the flattened
predictions against the labels. -/
def sqErrSum (b : TestBatch) : ℚ :=
  ((b.pred.flatten.zip b.y).map fun q => (q.1 - q.2) ^ 2).sum

/-- Lines 150-161: the accumulation loop of test(loader), returning the
final (accum, total_count). -/
def testAccum (is_classification : Bool) (loader : List TestBatch) : ℚ × ℕ :=
  loader.foldl (fun s b =>
    (s.1 + (if is_classification then (correctCount b : ℚ) else sqErrSum b),
     s.2 + b.y.length)) (0, 0)

/-- Lines 163-165: the classification return value accum / total_count. -/
def test_accuracy (loader : List TestBatch) : ℚ :=
  (testAccum true loader).1 / ((testAccum true loader).2 : ℚ)

/-- Lines 166-168: the regression return value (accum / total_count)**0.5. -/
noncomputable def test_rmse (loader : List TestBatch) : ℝ :=
  Real.sqrt (((testAccum false loader).1 / ((testAccum false loader).2 : ℚ) : ℚ) : ℝ)

theorem testAccum_spec (is_classification : Bool) (loader : List TestBatch) :
    testAccum is_classification loader =
      ((loader.map fun b =>
          if is_classification then (correctCount b : ℚ) else sqErrSum b).sum,
       (loader.map fun b => b.y.length).sum) := by
  have h : ∀ s : ℚ × ℕ, loader.foldl (fun s b =>
      (s.1 + (if is_classification then (correctCount b : ℚ) else sqErrSum b),
       s.2 + b.y.length)) s =
      (s.1 + (loader.map fun b =>
          if is_classification then (correctCount b : ℚ) else sqErrSum b).sum,
       s.2 + (loader.map fun b => b.y.length).sum) := by
    induction loader with
    | nil => intro s; simp
    | cons b rest ih =>
      intro s
      simp only [List.foldl_cons, ih, List.map_cons, List.sum_cons, add_assoc]
  simpa using h (0, 0)

theorem correctCount_le (b : TestBatch) : correctCount b ≤ b.y.length := by
  calc correctCount b ≤ (b.y.zip (b.pred.map fun p => ((argmaxIdx p : ℕ) : ℚ))).length :=
        List.countP_le_length _
    _ ≤ b.y.length := by
        rw [List.length_zip]
        exact min_le_left _ _

/-- C10: for a loader whose batches hold at least one sample in total,
test returns for classification the number of correctly
argmax-classified samples divided by the sample count — a value between 0
and 1 — and for regression the square root of the sum of squared errors
divided by the sample count, a non-negative value. -/
theorem test_metric_postconditions (loader : List TestBatch)
    (h : 0 < (loader.map fun b => b.y.length).sum) :
    test_accuracy loader =
      (((loader.map fun b => correctCount b).sum : ℕ) : ℚ) /
        (((loader.map fun b => b.y.length).sum : ℕ) : ℚ) ∧
    0 ≤ test_accuracy loader ∧ test_accuracy loader ≤ 1 ∧
    test_rmse loader =
      Real.sqrt ((((loader.map fun b => sqErrSum b).sum : ℚ) : ℝ) /
        ((((loader.map fun b => b.y.length).sum : ℕ) : ℚ) : ℝ)) ∧
    0 ≤ test_rmse loader := by
  have hacc : test_accuracy loader =
      (((loader.map fun b => correctCount b).sum : ℕ) : ℚ) /
        (((loader.map fun b => b.y.length).sum : ℕ) : ℚ) := by
    simp only [test_accuracy, testAccum_spec, if_true]
    congr 1
    rw [Nat.cast_list_sum, List.map_map]
    rfl
  have hnum_le : (loader.map fun b => correctCount b).sum ≤
      (loader.map fun b => b.y.length).sum :=
    List.sum_le_sum (fun b _ => correctCount_le b)
  have hden : (0 : ℚ) < (((loader.map fun b => b.y.length).sum : ℕ) : ℚ) := by
    exact_mod_cast h
  refine ⟨hacc, ?_, ?_, ?_, Real.sqrt_nonneg _⟩
  · rw [hacc]
    exact div_nonneg (Nat.cast_nonneg _) (Nat.cast_nonneg _)
  · rw [hacc, div_le_one hden]
    exact_mod_cast hnum_le
  · simp only [test_rmse, testAccum_spec, Bool.false_eq_true, if_false]
    rw [Rat.cast_div]

/-- Witness for test_metric_postconditions at a concrete one-batch
loader with two samples and two classes. -/
theorem test_metric_postconditions_witness :
    0 ≤ test_accuracy [TestBatch.mk [[1, 2], [3, 1]] [1, 1]] ∧
    test_accuracy [TestBatch.mk [[1, 2], [3, 1]] [1, 1]] ≤ 1 :=
  ⟨(test_metric_postconditions [TestBatch.mk [[1, 2], [3, 1]] [1, 1]]
      (by decide)).2.1,
   (test_metric_postconditions [TestBatch.mk [[1, 2], [3, 1]] [1, 1]]
      (by decide)).2.2.1⟩

/-! ## SimpleTextToEmbedding (lines 47-64) and the pooling argument

The tokenizer and pretrained model are external; the script's own code is
the call body: tokenize, run the model, return
out.last_hidden_state[:, 0, :].detach().cpu().  Device placement and
detach/cpu are identities on the values.  The parsed argument namespace
is in scope inside the call, so it is a parameter of the embedding; the
body never reads it. -/

/-- The parsed argument namespace (lines 30-42) with its ten fields. -/
structure Args where
  dataset : String
  channels : Int
  num_layers : Int
  batch_size : Int
  lr : ℚ
  epochs : Int
  seed : Int
  model : String
  pooling : String
  compile : Bool
  deriving DecidableEq, Repr

/-- Lines 53-64: SimpleTextToEmbedding.__call__.  last_hidden_state is a
batch-by-sequence-by-hidden tensor; [:, 0, :] takes the first (CLS) token
state of every sentence. -/
def simpleTextToEmbedding_call {Tok : Type} (args : Args)
    (tokenizer : List String → Tok)
    (model : Tok → List (List (List ℚ)))
    (sentences : List String) : List (List ℚ) :=
  let inputs := tokenizer sentences
  let out := model inputs
  out.map (fun states => states.headD [])

/-- C8: the --pooling argument has no effect on SimpleTextToEmbedding:
two runs of __call__ differing only in args.pooling produce identical
embeddings, and each unconditionally returns the hidden state of the
first (CLS) token of every sentence. -/
theorem pooling_has_no_effect {Tok : Type} (args : Args) (p1 p2 : String)
    (tokenizer : List String → Tok)
    (model : Tok → List (List (List ℚ)))
    (sentences : List String) :
    simpleTextToEmbedding_call { args with pooling := p1 } tokenizer model sentences =
      simpleTextToEmbedding_call { args with pooling := p2 } tokenizer model sentences ∧
    simpleTextToEmbedding_call { args with pooling := p1 } tokenizer model sentences =
      (model (tokenizer sentences)).map (fun states => states.headD []) :=
  ⟨rfl, rfl⟩

/-! ## The per-epoch print statements (lines 193-197)

Python's fixed-point formatting of a float to four decimal places,
modelled on exact rationals: round the absolute value scaled by 10^4 to
the nearest integer and print sign, integer part, a dot, and the
remainder left-padded with zeros to exactly four digits.  (The
half-to-even tie rule of binary floats never fires on the decimal scale;
the stated property — exactly four decimal digits — does not depend on
the tie direction.)  float("inf") formats as inf. -/

/-- The last four decimal digits of a natural number, zero-padded. -/
def pad4 (m : ℕ) : String :=
  String.mk [Nat.digitChar (m / 1000 % 10), Nat.digitChar (m / 100 % 10),
             Nat.digitChar (m / 10 % 10), Nat.digitChar (m % 10)]

/-- Fixed-point formatting with four decimal places. -/
def fmt4 (q : ℚ) : String :=
  let sign := if q < 0 then "-" else ""
  let n : ℕ := (round (|q| * 10000)).toNat
  sign ++ toString (n / 10000) ++ "." ++ pad4 (n % 10000)

/-- Formatting of a possibly infinite best metric. -/
def fmt4Top (x : WithTop ℚ) : String :=
  match x with
  | none => "inf"
  | some q => fmt4 q

/-- Line 193-194: the one line printed per epoch. -/
def epochLine (metric : String) (train_loss train_metric val_metric test_metric : ℚ) :
    String :=
  "Train Loss: " ++ fmt4 train_loss ++ ", Train " ++ metric ++ ": " ++
    fmt4 train_metric ++ ", Val " ++ metric ++ ": " ++ fmt4 val_metric ++
    ", Test " ++ metric ++ ": " ++ fmt4 test_metric

/-- Lines 196-197: the final line with the best metrics. -/
def bestLine (metric : String) (best_val best_test : WithTop ℚ) : String :=
  "Best Val " ++ metric ++ ": " ++ fmt4Top best_val ++
    ", Best Test " ++ metric ++ ": " ++ fmt4Top best_test

/-- Lines 171-197: everything the script prints to standard output, given
the per-epoch records of the framework calls: one epoch line per epoch,
then the best-metric line computed by the epoch loop. -/
def scriptOutput (is_classification : Bool) (records : List EpochRecord) :
    List String :=
  let metric := if is_classification then "Acc" else "RMSE"
  (records.map fun r =>
    epochLine metric r.train_loss r.train_metric r.val_metric r.test_metric)
  ++ [bestLine metric (epochLoop is_classification records).1
        (epochLoop is_classification records).2]

theorem digitChar_mod_isDigit (m : ℕ) : (Nat.digitChar (m % 10)).isDigit = true := by
  have h : m % 10 < 10 := Nat.mod_lt _ (by norm_num)
  set k := m % 10 with hk
  interval_cases k <;> rfl

theorem pad4_length (m : ℕ) : (pad4 m).length = 4 := rfl

theorem pad4_digits (m : ℕ) : ∀ c ∈ (pad4 m).data, c.isDigit = true := by
  intro c hc
  simp only [pad4, String.mk, List.mem_cons, List.not_mem_nil, or_false] at hc
  rcases hc with rfl | rfl | rfl | rfl <;> exact digitChar_mod_isDigit _

/-- C3: the script prints exactly one line per epoch — the i-th printed
line is the epoch line of the i-th epoch's training loss and train,
validation and test metrics, labelled Acc for classification and RMSE
otherwise — followed by exactly one final line with the best validation
and test metrics; and every formatted metric has exactly four decimal
places: fmt4 always splits as something, a dot, and four digit
characters. -/
theorem per_epoch_output (is_classification : Bool) (records : List EpochRecord) :
    (scriptOutput is_classification records).length = records.length + 1 ∧
    (∀ i (hi : i < records.length)
        (hi2 : i < (scriptOutput is_classification records).length),
      (scriptOutput is_classification records).get ⟨i, hi2⟩ =
        epochLine (if is_classification then "Acc" else "RMSE")
          (records.get ⟨i, hi⟩).train_loss (records.get ⟨i, hi⟩).train_metric
          (records.get ⟨i, hi⟩).val_metric (records.get ⟨i, hi⟩).test_metric) ∧
    (scriptOutput is_classification records).getLast? =
      some (bestLine (if is_classification then "Acc" else "RMSE")
        (epochLoop is_classification records).1
        (epochLoop is_classification records).2) ∧
    (∀ q : ℚ, ∃ a b : String, fmt4 q = a ++ "." ++ b ∧ b.length = 4 ∧
      ∀ c ∈ b.data, c.isDigit = true) := by
  refine ⟨?_, ?_, ?_, ?_⟩
  · simp [scriptOutput]
  · intro i hi hi2
    simp only [scriptOutput, List.get_eq_getElem]
    rw [List.getElem_append_left (by simpa using hi)]
    simp [hi]
  · simp only [scriptOutput]
    exact List.getLast?_concat _
  · intro q
    refine ⟨(if q < 0 then "-" else "") ++
      toString ((round (|q| * 10000)).toNat / 10000),
      pad4 ((round (|q| * 10000)).toNat % 10000), ?_, pad4_length _, pad4_digits _⟩
    simp only [fmt4, String.append_assoc]

/-- Witness for per_epoch_output at a one-epoch classification run: the
first printed line is that epoch's line. -/
theorem per_epoch_output_witness :
    (scriptOutput true [EpochRecord.mk 1 (1/2) (1/3) (1/4)]).get
        ⟨0, by simp [scriptOutput]⟩ =
      epochLine (if true then "Acc" else "RMSE") 1 (1/2) (1/3) (1/4) :=
  (per_epoch_output true [EpochRecord.mk 1 (1/2) (1/3) (1/4)]).2.1 0
    (by norm_num) (by simp [scriptOutput])

/-! ## Exception propagation (the whole script, lines 1-197)

The script's statement skeleton, at the granularity of exceptions: a
primitive statement is any simple statement (its framework calls may
raise, which an environment assigns); if/elif branches are chosen by a
condition oracle; for loops run their body a given number of times; and
try/except — which the script never uses — would catch.  Executing a
primitive, a branch or a loop has no effect on the environment, so a
run is determined by which calls raise; the first raised exception,
read off in execution order without any catching, is what a handler-free
program must surface. -/

/-- Statement forms of the script at exception granularity. -/
inductive PyStmt where
  | skip
  | prim (id : ℕ)
  | seq (a b : PyStmt)
  | ifElse (c : ℕ) (thn els : PyStmt)
  | forLoop (n : ℕ) (body : PyStmt)
  | tryExcept (body handler : PyStmt)
  deriving DecidableEq, Repr

/-- Does the statement tree contain no try/except? -/
def noHandler : PyStmt → Bool
  | PyStmt.skip => true
  | PyStmt.prim _ => true
  | PyStmt.seq a b => noHandler a && noHandler b
  | PyStmt.ifElse _ t e => noHandler t && noHandler e
  | PyStmt.forLoop _ b => noHandler b
  | PyStmt.tryExcept _ _ => false

/-- Run the same iteration result n times in sequence. -/
def seqN {E : Type} : ℕ → Except E Unit → Except E Unit
  | 0, _ => Except.ok ()
  | n + 1, r =>
    match r with
    | Except.ok _ => seqN n r
    | Except.error e => Except.error e

/-- Execution: conds chooses branches, env says which primitive calls
raise; try/except catches by running the handler. -/
def runStmt {E : Type} (conds : ℕ → Bool) (env : ℕ → Option E) :
    PyStmt → Except E Unit
  | PyStmt.skip => Except.ok ()
  | PyStmt.prim i =>
    match env i with
    | none => Except.ok ()
    | some e => Except.error e
  | PyStmt.seq a b =>
    match runStmt conds env a with
    | Except.ok _ => runStmt conds env b
    | Except.error e => Except.error e
  | PyStmt.ifElse c t e => if conds c then runStmt conds env t else runStmt conds env e
  | PyStmt.forLoop n b => seqN n (runStmt conds env b)
  | PyStmt.tryExcept b hd =>
    match runStmt conds env b with
    | Except.ok _ => Except.ok ()
    | Except.error _ => runStmt conds env hd

/-- The first exception raised in execution order, ignoring all catching. -/
def firstErr {E : Type} (conds : ℕ → Bool) (env : ℕ → Option E) :
    PyStmt → Option E
  | PyStmt.skip => none
  | PyStmt.prim i => env i
  | PyStmt.seq a b => (firstErr conds env a).orElse (fun _ => firstErr conds env b)
  | PyStmt.ifElse c t e => if conds c then firstErr conds env t else firstErr conds env e
  | PyStmt.forLoop n b => if n = 0 then none else firstErr conds env b
  | PyStmt.tryExcept b _ => firstErr conds env b

/-- An optional exception as a run outcome. -/
def toExcept {E : Type} : Option E → Except E Unit
  | none => Except.ok ()
  | some e => Except.error e

theorem seqN_ok {E : Type} (n : ℕ) : seqN n (Except.ok () : Except E Unit) = Except.ok () := by
  induction n with
  | zero => rfl
  | succ n ih => simpa [seqN] using ih

theorem seqN_succ {E : Type} (n : ℕ) (r : Except E Unit) : seqN (n + 1) r = r := by
  cases r with
  | ok u => cases u; simp [seqN, seqN_ok]
  | error e => rfl

/-- A handler-free statement surfaces exactly the first exception raised
by its primitive calls, unchanged. -/
theorem run_eq_firstErr {E : Type} (conds : ℕ → Bool) (env : ℕ → Option E)
    (s : PyStmt) (h : noHandler s = true) :
    runStmt conds env s = toExcept (firstErr conds env s) := by
  induction s with
  | skip => rfl
  | prim i =>
    cases henv : env i <;> simp [runStmt, firstErr, toExcept, henv]
  | seq a b iha ihb =>
    simp only [noHandler, Bool.and_eq_true] at h
    cases hfa : firstErr conds env a <;>
      simp [runStmt, firstErr, iha h.1, ihb h.2, hfa, toExcept, Option.orElse]
  | ifElse c t e iht ihe =>
    simp only [noHandler, Bool.and_eq_true] at h
    by_cases hc : conds c <;> simp [runStmt, firstErr, hc, iht h.1, ihe h.2]
  | forLoop n b ihb =>
    simp only [noHandler] at h
    cases n with
    | zero => simp [runStmt, firstErr, seqN, toExcept]
    | succ n => simp [runStmt, firstErr, seqN_succ, ihb h]
  | tryExcept b hd ihb ihhd => simp [noHandler] at h

/-- Lines 132-143: the per-batch body of train — move to device, forward
pass, the classification/regression loss branch (condition 0 is
is_classification), zero_grad, backward, the accumulator updates, and
optimizer.step. -/
def trainBatchBody : PyStmt :=
  PyStmt.seq (PyStmt.prim 29)
    (PyStmt.seq (PyStmt.prim 30)
      (PyStmt.seq (PyStmt.ifElse 0 (PyStmt.prim 31) (PyStmt.prim 32))
        (PyStmt.seq (PyStmt.prim 33)
          (PyStmt.seq (PyStmt.prim 34)
            (PyStmt.seq (PyStmt.prim 35) (PyStmt.prim 36))))))

/-- Lines 128-144: one call of train(epoch) over nTrain batches —
model.train(), the batch loop, and the final division (which raises
ZeroDivisionError on an empty loader). -/
def trainCall (nTrain : ℕ) : PyStmt :=
  PyStmt.seq (PyStmt.prim 28)
    (PyStmt.seq (PyStmt.forLoop nTrain trainBatchBody) (PyStmt.prim 37))

/-- Lines 147-168: one call of test(loader) over nBatches batches —
model.eval(), the accumulation loop with the classification/regression
branch, and the final metric computation branch. -/
def testCall (nBatches : ℕ) : PyStmt :=
  PyStmt.seq (PyStmt.prim 38)
    (PyStmt.seq
      (PyStmt.forLoop nBatches
        (PyStmt.seq (PyStmt.prim 39)
          (PyStmt.seq (PyStmt.prim 40)
            (PyStmt.seq (PyStmt.ifElse 0 (PyStmt.prim 41) (PyStmt.prim 42))
              (PyStmt.prim 43)))))
      (PyStmt.ifElse 0 (PyStmt.prim 44) (PyStmt.prim 45)))

/-- Lines 181-194: the body of one epoch — train, the three test calls,
the best-metric if/elif (conditions 2 and 3), and the print. -/
def epochBody (nTrain nVal nTest : ℕ) : PyStmt :=
  PyStmt.seq (trainCall nTrain)
    (PyStmt.seq (testCall nTrain)
      (PyStmt.seq (testCall nVal)
        (PyStmt.seq (testCall nTest)
          (PyStmt.seq
            (PyStmt.ifElse 2 (PyStmt.prim 46)
              (PyStmt.ifElse 3 (PyStmt.prim 47) PyStmt.skip))
            (PyStmt.prim 48)))))

/-- Lines 1-197: the whole script at exception granularity.  Primitives,
in order: 0 the import block (1-27); 1 parser setup and parse_args
(29-42); 2 manual_seed (44); 3 device (45); 4 the class definition
(47-64); 5 the SimpleTextToEmbedding constructor — tokenizer and model
loading (67); 6 kwargs (69-75); 7 path (78-79); 8 the dataset constructor
(82); 9 model_name and filename (84-85); 10 materialize (86); 11-12 the
two stype renames (87-88); 13 is_classification (90); 14 the splits (92);
15-17 the tensor frames and loaders (94-101); 18 stype_encoder_dict
(103-109); 19/20 the output_channels branch (111-114, condition 0);
21 the FTTransformer constructor (116-123); 22 torch.compile guarded by
args.compile (condition 1, line 124); 23 the optimizer (125); 24-25 the
two function definitions (128, 147); 26/27 the metric initialisation
branch (171-178); the epoch loop (180-194); 49 the final print
(196-197). -/
def scriptStmt (epochs nTrain nVal nTest : ℕ) : PyStmt :=
  PyStmt.seq (PyStmt.prim 0)
    (PyStmt.seq (PyStmt.prim 1)
      (PyStmt.seq (PyStmt.prim 2)
        (PyStmt.seq (PyStmt.prim 3)
          (PyStmt.seq (PyStmt.prim 4)
            (PyStmt.seq (PyStmt.prim 5)
              (PyStmt.seq (PyStmt.prim 6)
                (PyStmt.seq (PyStmt.prim 7)
                  (PyStmt.seq (PyStmt.prim 8)
                    (PyStmt.seq (PyStmt.prim 9)
                      (PyStmt.seq (PyStmt.prim 10)
                        (PyStmt.seq (PyStmt.prim 11)
                          (PyStmt.seq (PyStmt.prim 12)
                            (PyStmt.seq (PyStmt.prim 13)
                              (PyStmt.seq (PyStmt.prim 14)
                                (PyStmt.seq (PyStmt.prim 15)
                                  (PyStmt.seq (PyStmt.prim 16)
                                    (PyStmt.seq (PyStmt.prim 17)
                                      (PyStmt.seq (PyStmt.prim 18)
                                        (PyStmt.seq
                                          (PyStmt.ifElse 0 (PyStmt.prim 19) (PyStmt.prim 20))
                                          (PyStmt.seq (PyStmt.prim 21)
                                            (PyStmt.seq
                                              (PyStmt.ifElse 1 (PyStmt.prim 22) PyStmt.skip)
                                              (PyStmt.seq (PyStmt.prim 23)
                                                (PyStmt.seq (PyStmt.prim 24)
                                                  (PyStmt.seq (PyStmt.prim 25)
                                                    (PyStmt.seq
                                                      (PyStmt.ifElse 0 (PyStmt.prim 26) (PyStmt.prim 27))
                                                      (PyStmt.seq
                                                        (PyStmt.forLoop epochs
                                                          (epochBody nTrain nVal nTest))
                                                        (PyStmt.prim 49)))))))))))))))))))))))))))

/-- C7: the script contains no exception handler anywhere — its statement
tree is try/except-free — and therefore, for every choice of branch
outcomes and of which framework calls raise, running the script surfaces
exactly the first exception raised, unchanged (and succeeds when no call
raises). -/
theorem no_exception_handling (epochs nTrain nVal nTest : ℕ) :
    noHandler (scriptStmt epochs nTrain nVal nTest) = true ∧
    ∀ (E : Type) (conds : ℕ → Bool) (env : ℕ → Option E),
      runStmt conds env (scriptStmt epochs nTrain nVal nTest) =
        toExcept (firstErr conds env (scriptStmt epochs nTrain nVal nTest)) := by
  constructor
  · rfl
  · intro E conds env
    exact run_eq_firstErr conds env _ rfl

end PyTorchFrame
